import Mathlib

/-!
Shallow embedding of the node-healthcheck lease manager
(`controllers/resources/lease.go`).

Modelling conventions:
* Go `time.Duration` and `time.Time` are `Int` (nanoseconds / nanoseconds
  since the epoch).  `t.After(u)` is `t > u`, `t.Before(u)` is `t < u`,
  `t.Add(d)` is `t + d`.
* Go errors are the inductive `GoError`; `errors.IsNotFound` is equality
  with `GoError.notFound`, the `lease.AlreadyHeldError` type assertion is
  equality with `GoError.alreadyHeld`, and the `fmt.Errorf("lease
  Spec.AcquireTime is nil")` error is `GoError.malformedLease`.
* The external lease store and the Kubernetes client are oracles: the
  results of `client.Get`, `GetLease`, `RequestLease` and `InvalidateLease`
  are inputs, and the store writes the code issues (`RequestLease` with its
  TTL, `InvalidateLease`) are collected in a `List StoreWrite` trace, in
  program order.
* `ManageLease` in Go reads `time.Now()` twice (inside `isLeaseOverdue`
  and at line 114); both reads are modelled by the single input `now`.
-/

def nsPerSecond : Int := 1000000000

def nsPerMinute : Int := 60 * nsPerSecond

/-- `LeaseBuffer = time.Minute` (lease.go line 26). -/
def LeaseBuffer : Int := nsPerMinute

/-- `RequeueIfLeaseTaken = time.Minute` (lease.go line 27). -/
def RequeueIfLeaseTaken : Int := nsPerMinute

/-- `DefaultLeaseDuration = 10 * time.Minute` (lease.go line 29). -/
def DefaultLeaseDuration : Int := 10 * nsPerMinute

/-- `maxTimesToExtendLease = 2` (lease.go line 31). -/
def maxTimesToExtendLease : Int := 2

/-- `holderIdentity = "Node-Healthcheck"` (lease.go line 24). -/
def holderIdentity : String := "Node-Healthcheck"

/-- One entry of `nhc.Spec.EscalatingRemediations`: the template kind
`esRemediation.RemediationTemplate.Kind` and the timeout
`esRemediation.Timeout.Duration`. -/
structure EscalatingRemediation where
  remediationTemplateKind : String
  timeout : Int
deriving DecidableEq, Repr

/-- The fields of a `coordv1.Lease` that lease.go reads:
`Spec.HolderIdentity` (a nullable pointer), `Spec.AcquireTime` (nullable),
`Spec.RenewTime` and `Spec.LeaseDurationSeconds` (dereferenced without a
nil check, so modelled as plain values), and the object name. -/
structure Lease where
  name : String
  holderIdentity : Option String
  acquireTime : Option Int
  renewTime : Int
  leaseDurationSeconds : Int
deriving DecidableEq, Repr

/-- Error values observable in lease.go: `errors.IsNotFound`,
`lease.AlreadyHeldError`, the malformed-lease error built at line 162, and
an opaque family of other backend errors. -/
inductive GoError where
  | notFound
  | alreadyHeld
  | malformedLease
  | other (code : Nat)
deriving DecidableEq, Repr

/-- A write issued against the lease store: `RequestLease` with the TTL it
was given, or `InvalidateLease`. -/
inductive StoreWrite where
  | request (ttl : Int)
  | invalidate
deriving DecidableEq, Repr

/-- `strings.TrimSuffix(s, suffix)`: drops `suffix` from the end of `s`
when present, otherwise returns `s` unchanged.  Modelled on the character
lists of the strings (for valid UTF-8, Go's byte-based suffix test agrees
with the character-based one). -/
def trimSuffix (s suffix : String) : String :=
  if suffix.data.isSuffixOf s.data then
    String.mk (s.data.take (s.data.length - suffix.data.length))
  else s

/-- `getTimeoutForRemediation` (lease.go lines 135-145): `leaseDuration`
starts at the zero duration; the loop over the escalating remediations
assigns the timeout of the first step whose template kind, with the
literal suffix `"Template"` trimmed, equals the remediation kind, then
breaks. -/
def getTimeoutForRemediation (remediationKind : String) :
    List EscalatingRemediation → Int
  | [] => 0
  | es :: rest =>
    if trimSuffix es.remediationTemplateKind "Template" == remediationKind then
      es.timeout
    else getTimeoutForRemediation remediationKind rest

/-- `getLeaseDurationForRemediation` (lease.go lines 128-133): the
remediation's timeout when nonzero, else `DefaultLeaseDuration`. -/
def getLeaseDurationForRemediation (remediationKind : String)
    (policy : List EscalatingRemediation) : Int :=
  if getTimeoutForRemediation remediationKind policy != 0 then
    getTimeoutForRemediation remediationKind policy
  else DefaultLeaseDuration

/-- The loop of `getLeaseDurationForRemediations` (lease.go lines
151-155): keep the accumulator unless the current remediation's duration
is strictly greater. -/
def maxLeaseDurationLoop (policy : List EscalatingRemediation) :
    List String → Int → Int
  | [], acc => acc
  | k :: ks, acc =>
    maxLeaseDurationLoop policy ks
      (if getLeaseDurationForRemediation k policy > acc then
        getLeaseDurationForRemediation k policy
      else acc)

/-- `getLeaseDurationForRemediations` (lease.go lines 147-158):
`DefaultLeaseDuration` when the policy is empty, otherwise the loop above
started from the zero duration. -/
def getLeaseDurationForRemediations (policy : List EscalatingRemediation)
    (remediationKinds : List String) : Int :=
  if policy.length > 0 then maxLeaseDurationLoop policy remediationKinds 0
  else DefaultLeaseDuration

/-- `calcLeaseExpiration` (lease.go lines 173-175):
`acquireTime + (maxTimesToExtendLease + 1) * leaseDuration`. -/
def calcLeaseExpiration (acquireTime leaseDuration : Int) : Int :=
  acquireTime + (maxTimesToExtendLease + 1) * leaseDuration

/-- `isLeaseOverdue` (lease.go lines 160-171): `(false, error)` when
`Spec.AcquireTime` is nil, otherwise `time.Now().After(expiration)` with a
nil error. -/
def isLeaseOverdue (now : Int) (l : Lease)
    (policy : List EscalatingRemediation) (remediationKinds : List String) :
    Bool × Option GoError :=
  match l.acquireTime with
  | none => (false, some GoError.malformedLease)
  | some acquire =>
    (decide (now >
      calcLeaseExpiration acquire
        (getLeaseDurationForRemediations policy remediationKinds)), none)

/-- `isRemediationsExist` (lease.go lines 177-179). -/
def isRemediationsExist (remediationKinds : List String) : Bool :=
  decide (remediationKinds.length > 0)

/-- `isLeaseOwner` (lease.go lines 197-202): false when
`Spec.HolderIdentity` is nil, otherwise equality with the constant
`holderIdentity`. -/
def isLeaseOwner (l : Lease) : Bool :=
  match l.holderIdentity with
  | none => false
  | some h => h == holderIdentity

/-- `ObtainNodeLease` (lease.go lines 61-85).  Arguments `nodeFetch` and
`requestResult` are the oracle results of `client.Get` on the node and of
`RequestLease`.  Result: obtained flag, requeue hint (`*time.Duration`),
returned error, and the trace of store writes issued. -/
def ObtainNodeLease (remediationKind : String)
    (policy : List EscalatingRemediation)
    (nodeFetch : Except GoError Unit)
    (requestResult : Except GoError Unit) :
    Bool × Option Int × Option GoError × List StoreWrite :=
  match nodeFetch with
  | .error e => (false, none, some e, [])
  | .ok _ =>
    match requestResult with
    | .error GoError.alreadyHeld =>
      (false, some RequeueIfLeaseTaken, some GoError.alreadyHeld,
        [StoreWrite.request
          (getLeaseDurationForRemediation remediationKind policy + LeaseBuffer)])
    | .error e =>
      (false, none, some e,
        [StoreWrite.request
          (getLeaseDurationForRemediation remediationKind policy + LeaseBuffer)])
    | .ok _ =>
      (true, some (getLeaseDurationForRemediation remediationKind policy), none,
        [StoreWrite.request
          (getLeaseDurationForRemediation remediationKind policy + LeaseBuffer)])

/-- The inputs of one `ManageLease` call: the current time, the escalation
policy of the NHC, the kinds of the active remediation CRs, and the oracle
results of the node fetch, lease fetch, `InvalidateLease` and
`RequestLease`. -/
structure ManageLeaseInput where
  now : Int
  policy : List EscalatingRemediation
  remediationKinds : List String
  nodeFetch : Except GoError Unit
  leaseFetch : Except GoError Lease
  invalidateResult : Option GoError
  requestResult : Except GoError Unit
deriving Repr

/-- The tail of `ManageLease` after the no-remediations-and-owner branch
(lease.go lines 106-125): the overdue check, the overdue release, and the
extension branch. -/
def manageLeaseTail (inp : ManageLeaseInput) (l : Lease) :
    Int × Option GoError × List StoreWrite :=
  match isLeaseOverdue inp.now l inp.policy inp.remediationKinds with
  | (_, some e) => (0, some e, [])
  | (ok, none) =>
    if ok then (0, inp.invalidateResult, [StoreWrite.invalidate])
    else
      let leaseExpectedDuration :=
        getLeaseDurationForRemediations inp.policy inp.remediationKinds
      let expectedExpiry := inp.now + leaseExpectedDuration
      let actualExpiry := l.renewTime + l.leaseDurationSeconds * nsPerSecond
      if actualExpiry < expectedExpiry then
        match inp.requestResult with
        | .error e =>
          (0, some e, [StoreWrite.request (leaseExpectedDuration + LeaseBuffer)])
        | .ok _ =>
          (leaseExpectedDuration, none,
            [StoreWrite.request (leaseExpectedDuration + LeaseBuffer)])
      else (leaseExpectedDuration, none, [])

/-- `ManageLease` (lease.go lines 87-126).  Result: requeue duration,
returned error, and the trace of store writes issued. -/
def ManageLease (inp : ManageLeaseInput) :
    Int × Option GoError × List StoreWrite :=
  match inp.nodeFetch with
  | .error e => (0, some e, [])
  | .ok _ =>
    match inp.leaseFetch with
    | .error e =>
      if e == GoError.notFound then (0, none, []) else (0, some e, [])
    | .ok l =>
      if !isRemediationsExist inp.remediationKinds && isLeaseOwner l then
        (0, inp.invalidateResult, [StoreWrite.invalidate])
      else manageLeaseTail inp l

/-! ### Helper lemmas -/

/-- The first escalation step whose template kind, with the suffix
`"Template"` trimmed, equals the remediation kind. -/
def firstMatchingStep (remediationKind : String)
    (policy : List EscalatingRemediation) : Option EscalatingRemediation :=
  policy.find?
    (fun es => trimSuffix es.remediationTemplateKind "Template" == remediationKind)

theorem getTimeoutForRemediation_eq_firstMatchingStep (k : String)
    (policy : List EscalatingRemediation) :
    getTimeoutForRemediation k policy =
      match firstMatchingStep k policy with
      | some es => es.timeout
      | none => 0 := by
  induction policy with
  | nil => rfl
  | cons es rest ih =>
    cases h : (trimSuffix es.remediationTemplateKind "Template" == k) with
    | true => simp [getTimeoutForRemediation, firstMatchingStep, List.find?, h]
    | false =>
      simp only [getTimeoutForRemediation, firstMatchingStep, List.find?, h,
        Bool.false_eq_true, if_false]
      exact ih

theorem getTimeoutForRemediation_zero_or_mem (k : String)
    (policy : List EscalatingRemediation) :
    getTimeoutForRemediation k policy = 0 ∨
      ∃ es ∈ policy, getTimeoutForRemediation k policy = es.timeout := by
  induction policy with
  | nil => left; rfl
  | cons es rest ih =>
    cases h : (trimSuffix es.remediationTemplateKind "Template" == k) with
    | true =>
      right
      exact ⟨es, List.mem_cons_self es rest, by simp [getTimeoutForRemediation, h]⟩
    | false =>
      have hstep : getTimeoutForRemediation k (es :: rest) =
          getTimeoutForRemediation k rest := by
        simp [getTimeoutForRemediation, h]
      rcases ih with h0 | ⟨es1, hes1, heq⟩
      · left; rw [hstep]; exact h0
      · right
        refine ⟨es1, List.mem_cons_of_mem es hes1, ?_⟩
        rw [hstep]
        exact heq

theorem getLeaseDurationForRemediation_nonneg (k : String)
    (policy : List EscalatingRemediation)
    (hnn : ∀ es ∈ policy, 0 ≤ es.timeout) :
    0 ≤ getLeaseDurationForRemediation k policy := by
  unfold getLeaseDurationForRemediation
  by_cases h : getTimeoutForRemediation k policy = 0
  · simp [h, DefaultLeaseDuration, nsPerMinute, nsPerSecond]
  · rcases getTimeoutForRemediation_zero_or_mem k policy with h0 | ⟨es, hes, heq⟩
    · exact absurd h0 h
    · simp only [bne_iff_ne, ne_eq, h, not_false_eq_true, if_true]
      exact heq ▸ hnn es hes

theorem maxLeaseDurationLoop_eq_foldl (policy : List EscalatingRemediation)
    (ks : List String) (acc : Int) :
    maxLeaseDurationLoop policy ks acc =
      ks.foldl (fun a x => max a (getLeaseDurationForRemediation x policy)) acc := by
  induction ks generalizing acc with
  | nil => rfl
  | cons k ks ih =>
    rw [maxLeaseDurationLoop, List.foldl_cons, ih]
    congr 1
    rw [max_def]
    split <;> split <;> omega

/-! ### Claim theorems: duration policy -/

/-- The spec's `requiredDuration`: `defaultLeaseDuration` for an empty
policy, a zero duration for a non-empty policy with no remediations, and
otherwise the maximum of `durationForRemediation` over the given
remediations. -/
def requiredDurationSpec (policy : List EscalatingRemediation)
    (remediationKinds : List String) : Int :=
  if policy = [] then DefaultLeaseDuration
  else
    match remediationKinds with
    | [] => 0
    | k :: ks =>
      ks.foldl (fun acc x => max acc (getLeaseDurationForRemediation x policy))
        (getLeaseDurationForRemediation k policy)

/-- C4: `getLeaseDurationForRemediations` returns `DefaultLeaseDuration`
unconditionally when the policy has no steps; with a non-empty policy it
returns the maximum of the per-remediation durations over the given
remediations, and a zero duration when the remediation set is empty. -/
theorem getLeaseDurationForRemediations_matches_spec
    (policy : List EscalatingRemediation) (kinds : List String)
    (hnn : ∀ es ∈ policy, 0 ≤ es.timeout) :
    getLeaseDurationForRemediations policy kinds =
      requiredDurationSpec policy kinds ∧
    (policy = [] →
      getLeaseDurationForRemediations policy kinds = DefaultLeaseDuration) ∧
    (policy ≠ [] → kinds = [] →
      getLeaseDurationForRemediations policy kinds = 0) := by
  by_cases hp : policy = []
  · subst hp
    refine ⟨rfl, fun _ => rfl, fun h => absurd rfl h⟩
  · have hlen : 0 < policy.length := List.length_pos.mpr hp
    have hcode : getLeaseDurationForRemediations policy kinds =
        maxLeaseDurationLoop policy kinds 0 := by
      unfold getLeaseDurationForRemediations
      rw [if_pos hlen]
    refine ⟨?_, fun h => absurd h hp, fun _ hk => by rw [hcode, hk]; rfl⟩
    rw [hcode, maxLeaseDurationLoop_eq_foldl]
    unfold requiredDurationSpec
    rw [if_neg hp]
    cases kinds with
    | nil => rfl
    | cons k ks =>
      rw [List.foldl_cons]
      have h0 : max 0 (getLeaseDurationForRemediation k policy) =
          getLeaseDurationForRemediation k policy :=
        max_eq_right (getLeaseDurationForRemediation_nonneg k policy hnn)
      rw [h0]

/-- C4 witness: the spec's own example, policy
[("SoftReboot", 5m), ("PowerCycle", 20m)] with both remediation kinds
active, gives 20 minutes. -/
theorem getLeaseDurationForRemediations_matches_spec_witness :
    getLeaseDurationForRemediations
        [⟨"SoftRebootTemplate", 5 * nsPerMinute⟩,
         ⟨"PowerCycleTemplate", 20 * nsPerMinute⟩]
        ["SoftReboot", "PowerCycle"] =
      requiredDurationSpec
        [⟨"SoftRebootTemplate", 5 * nsPerMinute⟩,
         ⟨"PowerCycleTemplate", 20 * nsPerMinute⟩]
        ["SoftReboot", "PowerCycle"] ∧
    getLeaseDurationForRemediations
        [⟨"SoftRebootTemplate", 5 * nsPerMinute⟩,
         ⟨"PowerCycleTemplate", 20 * nsPerMinute⟩]
        ["SoftReboot", "PowerCycle"] = 20 * nsPerMinute := by
  have h := (getLeaseDurationForRemediations_matches_spec
    [⟨"SoftRebootTemplate", 5 * nsPerMinute⟩,
     ⟨"PowerCycleTemplate", 20 * nsPerMinute⟩]
    ["SoftReboot", "PowerCycle"] (by decide)).1
  exact ⟨h, by decide⟩

/-- C5: `getLeaseDurationForRemediation` returns the timeout of the first
escalation step whose template kind with the suffix "Template" removed
equals the remediation's kind; it returns `DefaultLeaseDuration` when no
step matches or when the first matching step's timeout is zero. -/
theorem getLeaseDurationForRemediation_matches_spec (k : String)
    (policy : List EscalatingRemediation) :
    (firstMatchingStep k policy = none →
      getLeaseDurationForRemediation k policy = DefaultLeaseDuration) ∧
    (∀ es, firstMatchingStep k policy = some es →
      getLeaseDurationForRemediation k policy =
        if es.timeout = 0 then DefaultLeaseDuration else es.timeout) := by
  constructor
  · intro h
    unfold getLeaseDurationForRemediation
    rw [getTimeoutForRemediation_eq_firstMatchingStep, h]
    simp
  · intro es h
    unfold getLeaseDurationForRemediation
    rw [getTimeoutForRemediation_eq_firstMatchingStep, h]
    by_cases ht : es.timeout = 0
    · simp [ht]
    · simp [ht]

/-- C5 witness: with policy [("FooTemplate", 0), ("BarTemplate", 5m)],
remediation kind "Foo" matches the first step whose timeout is zero, so
the default applies; kind "Baz" matches nothing, so the default applies as
well. -/
theorem getLeaseDurationForRemediation_matches_spec_witness :
    getLeaseDurationForRemediation "Foo"
        [⟨"FooTemplate", 0⟩, ⟨"BarTemplate", 5 * nsPerMinute⟩] =
      DefaultLeaseDuration ∧
    getLeaseDurationForRemediation "Baz"
        [⟨"FooTemplate", 0⟩, ⟨"BarTemplate", 5 * nsPerMinute⟩] =
      DefaultLeaseDuration := by
  constructor
  · have h := (getLeaseDurationForRemediation_matches_spec "Foo"
      [⟨"FooTemplate", 0⟩, ⟨"BarTemplate", 5 * nsPerMinute⟩]).2
        ⟨"FooTemplate", 0⟩ (by decide)
    simpa using h
  · exact (getLeaseDurationForRemediation_matches_spec "Baz"
      [⟨"FooTemplate", 0⟩, ⟨"BarTemplate", 5 * nsPerMinute⟩]).1 (by decide)

/-! ### Claim theorems: overdue detection -/

/-- C1: `isLeaseOverdue` fails with the malformed-lease error, returning
false and performing no release, exactly when the lease's acquire time is
unset; when the acquire time is set it returns true exactly when the
current time is after acquireTime + (maxTimesToExtendLease + 1) x
requiredDuration, with maxTimesToExtendLease + 1 = 3. -/
theorem isLeaseOverdue_matches_spec (now : Int) (l : Lease)
    (policy : List EscalatingRemediation) (kinds : List String) :
    (isLeaseOverdue now l policy kinds = (false, some GoError.malformedLease) ↔
      l.acquireTime = none) ∧
    (∀ a, l.acquireTime = some a →
      (isLeaseOverdue now l policy kinds = (true, none) ↔
        now > a + (maxTimesToExtendLease + 1) *
          getLeaseDurationForRemediations policy kinds)) ∧
    maxTimesToExtendLease + 1 = 3 ∧
    (l.acquireTime = none → ∀ inp : ManageLeaseInput,
      manageLeaseTail inp l = (0, some GoError.malformedLease, [])) := by
  refine ⟨?_, ?_, by decide, ?_⟩
  · constructor
    · intro h
      cases ha : l.acquireTime with
      | none => rfl
      | some a =>
        rw [isLeaseOverdue, ha] at h
        simp at h
    · intro h
      rw [isLeaseOverdue, h]
  · intro a ha
    simp only [isLeaseOverdue, ha, calcLeaseExpiration]
    constructor
    · intro h
      have := congrArg Prod.fst h
      simpa using this
    · intro h
      simp [h]
  · intro h inp
    rw [manageLeaseTail, isLeaseOverdue, h]

/-- C1 witness: a lease with no acquire time fails with the malformed
lease error, and a lease acquired at time 0 with the default 10-minute
duration is overdue at 30 minutes plus one nanosecond. -/
theorem isLeaseOverdue_matches_spec_witness :
    isLeaseOverdue 0 ⟨"l", some "Node-Healthcheck", none, 0, 0⟩ [] [] =
      (false, some GoError.malformedLease) ∧
    isLeaseOverdue (30 * nsPerMinute + 1)
        ⟨"l", some "Node-Healthcheck", some 0, 0, 0⟩ [] ["A"] =
      (true, none) := by
  constructor
  · exact (isLeaseOverdue_matches_spec 0
      ⟨"l", some "Node-Healthcheck", none, 0, 0⟩ [] []).1.mpr rfl
  · exact ((isLeaseOverdue_matches_spec (30 * nsPerMinute + 1)
      ⟨"l", some "Node-Healthcheck", some 0, 0, 0⟩ [] ["A"]).2.1 0 rfl).mpr
      (by decide)

/-! ### Claim theorems: ManageLease -/

theorem manageLease_fetched (inp : ManageLeaseInput) (l : Lease)
    (hnode : inp.nodeFetch = Except.ok ())
    (hlease : inp.leaseFetch = Except.ok l) :
    ManageLease inp =
      if !isRemediationsExist inp.remediationKinds && isLeaseOwner l then
        (0, inp.invalidateResult, [StoreWrite.invalidate])
      else manageLeaseTail inp l := by
  rw [ManageLease, hnode, hlease]

/-- C2 counterexample: with no active remediations, a one-step escalation
policy, and a lease acquired at time 0 whose holder "other-holder" is not
this process's identity, `ManageLease` at time 1 issues an invalidate
store write — the foreign-held lease is not left untouched. -/
theorem manageLease_foreign_holder_written :
    ManageLease
        { now := 1, policy := [⟨"FooTemplate", 5 * nsPerMinute⟩],
          remediationKinds := [], nodeFetch := Except.ok (),
          leaseFetch := Except.ok ⟨"l", some "other-holder", some 0, 0, 0⟩,
          invalidateResult := none, requestResult := Except.ok () } =
      (0, none, [StoreWrite.invalidate]) ∧
    "other-holder" ≠ holderIdentity := by
  exact ⟨by decide, by decide⟩

/-- C2 (amended): with empty activeRemediations, `ManageLease` releases
the lease and returns (0, error-from-release) when the fetched lease's
holder equals this process's identity; when the holder differs the
no-remediations release path is not taken and the call proceeds to the
overdue check, so the lease is left without a store write only when it is
not overdue and its actual expiry is not before the expected expiry. -/
theorem manageLease_empty_remediations_spec (inp : ManageLeaseInput) (l : Lease)
    (hnode : inp.nodeFetch = Except.ok ())
    (hlease : inp.leaseFetch = Except.ok l)
    (hrem : inp.remediationKinds = []) :
    (isLeaseOwner l = true →
      ManageLease inp = (0, inp.invalidateResult, [StoreWrite.invalidate])) ∧
    (isLeaseOwner l = false → ManageLease inp = manageLeaseTail inp l) ∧
    (isLeaseOwner l = false →
      isLeaseOverdue inp.now l inp.policy inp.remediationKinds = (false, none) →
      ¬ (l.renewTime + l.leaseDurationSeconds * nsPerSecond <
          inp.now +
            getLeaseDurationForRemediations inp.policy inp.remediationKinds) →
      ManageLease inp =
        (getLeaseDurationForRemediations inp.policy inp.remediationKinds,
          none, [])) := by
  have hfetched := manageLease_fetched inp l hnode hlease
  have hex : isRemediationsExist inp.remediationKinds = false := by
    simp [isRemediationsExist, hrem]
  refine ⟨?_, ?_, ?_⟩
  · intro hown
    rw [hfetched, hex, hown]
    rfl
  · intro hown
    rw [hfetched, hex, hown]
    rfl
  · intro hown hov hlt
    rw [hfetched, hex, hown]
    simp only [Bool.not_false, Bool.and_false, Bool.false_eq_true, if_false]
    rw [manageLeaseTail, hov]
    simp only [Bool.false_eq_true, if_false]
    rw [if_neg hlt]

/-- C2 witness: an owned lease with no remediations is invalidated; a
foreign-held fresh lease with an empty policy and actual expiry past the
expected expiry is left without any store write. -/
theorem manageLease_empty_remediations_spec_witness :
    ManageLease
        { now := 0, policy := [], remediationKinds := [],
          nodeFetch := Except.ok (),
          leaseFetch := Except.ok ⟨"l", some "Node-Healthcheck", some 0, 0, 660⟩,
          invalidateResult := none, requestResult := Except.ok () } =
      (0, none, [StoreWrite.invalidate]) ∧
    ManageLease
        { now := 0, policy := [], remediationKinds := [],
          nodeFetch := Except.ok (),
          leaseFetch := Except.ok ⟨"l", some "other-holder", some 0, 0, 660⟩,
          invalidateResult := none, requestResult := Except.ok () } =
      (DefaultLeaseDuration, none, []) := by
  constructor
  · exact (manageLease_empty_remediations_spec
      { now := 0, policy := [], remediationKinds := [],
        nodeFetch := Except.ok (),
        leaseFetch := Except.ok ⟨"l", some "Node-Healthcheck", some 0, 0, 660⟩,
        invalidateResult := none, requestResult := Except.ok () }
      ⟨"l", some "Node-Healthcheck", some 0, 0, 660⟩ rfl rfl rfl).1 (by decide)
  · have h := (manageLease_empty_remediations_spec
      { now := 0, policy := [], remediationKinds := [],
        nodeFetch := Except.ok (),
        leaseFetch := Except.ok ⟨"l", some "other-holder", some 0, 0, 660⟩,
        invalidateResult := none, requestResult := Except.ok () }
      ⟨"l", some "other-holder", some 0, 0, 660⟩ rfl rfl rfl).2.2
      (by decide) (by decide) (by decide)
    simpa using h

/-- C3: in the non-empty-remediations, not-overdue branch, `ManageLease`
issues a requestLease write with TTL requiredDuration + LeaseBuffer
exactly when the actual expiry is strictly before the expected expiry,
performs no store write otherwise, propagates any extension error, and in
every non-error sub-case returns requiredDuration with no error. -/
theorem manageLease_extension_spec (inp : ManageLeaseInput) (l : Lease)
    (hnode : inp.nodeFetch = Except.ok ())
    (hlease : inp.leaseFetch = Except.ok l)
    (hrem : inp.remediationKinds ≠ [])
    (hov : isLeaseOverdue inp.now l inp.policy inp.remediationKinds =
      (false, none)) :
    (l.renewTime + l.leaseDurationSeconds * nsPerSecond <
        inp.now + getLeaseDurationForRemediations inp.policy inp.remediationKinds →
      (inp.requestResult = Except.ok () →
        ManageLease inp =
          (getLeaseDurationForRemediations inp.policy inp.remediationKinds, none,
            [StoreWrite.request
              (getLeaseDurationForRemediations inp.policy inp.remediationKinds +
                LeaseBuffer)])) ∧
      (∀ e, inp.requestResult = Except.error e →
        ManageLease inp =
          (0, some e,
            [StoreWrite.request
              (getLeaseDurationForRemediations inp.policy inp.remediationKinds +
                LeaseBuffer)]))) ∧
    (¬ (l.renewTime + l.leaseDurationSeconds * nsPerSecond <
        inp.now +
          getLeaseDurationForRemediations inp.policy inp.remediationKinds) →
      ManageLease inp =
        (getLeaseDurationForRemediations inp.policy inp.remediationKinds,
          none, [])) := by
  have hfetched := manageLease_fetched inp l hnode hlease
  have hex : isRemediationsExist inp.remediationKinds = true := by
    simp [isRemediationsExist, List.length_pos, hrem]
  have htail : ManageLease inp = manageLeaseTail inp l := by
    rw [hfetched, hex]
    rfl
  rw [htail, manageLeaseTail, hov]
  simp only [Bool.false_eq_true, if_false]
  constructor
  · intro hlt
    rw [if_pos hlt]
    constructor
    · intro hreq
      rw [hreq]
    · intro e hreq
      rw [hreq]
  · intro hlt
    rw [if_neg hlt]

/-- C3 witness: the end-to-end scenario of the spec — empty policy, one
active remediation, a fresh owned lease with renew time equal to now and
660 lease duration seconds gives no store write and (10 minutes, nil);
with 300 lease duration seconds the lease is extended with an 11-minute
TTL. -/
theorem manageLease_extension_spec_witness :
    ManageLease
        { now := 0, policy := [], remediationKinds := ["A"],
          nodeFetch := Except.ok (),
          leaseFetch := Except.ok ⟨"l", some "Node-Healthcheck", some 0, 0, 660⟩,
          invalidateResult := none, requestResult := Except.ok () } =
      (DefaultLeaseDuration, none, []) ∧
    ManageLease
        { now := 0, policy := [], remediationKinds := ["A"],
          nodeFetch := Except.ok (),
          leaseFetch := Except.ok ⟨"l", some "Node-Healthcheck", some 0, 0, 300⟩,
          invalidateResult := none, requestResult := Except.ok () } =
      (DefaultLeaseDuration, none,
        [StoreWrite.request (DefaultLeaseDuration + LeaseBuffer)]) := by
  constructor
  · have h := (manageLease_extension_spec
      { now := 0, policy := [], remediationKinds := ["A"],
        nodeFetch := Except.ok (),
        leaseFetch := Except.ok ⟨"l", some "Node-Healthcheck", some 0, 0, 660⟩,
        invalidateResult := none, requestResult := Except.ok () }
      ⟨"l", some "Node-Healthcheck", some 0, 0, 660⟩ rfl rfl (by decide)
      (by decide)).2 (by decide)
    simpa using h
  · have h := ((manageLease_extension_spec
      { now := 0, policy := [], remediationKinds := ["A"],
        nodeFetch := Except.ok (),
        leaseFetch := Except.ok ⟨"l", some "Node-Healthcheck", some 0, 0, 300⟩,
        invalidateResult := none, requestResult := Except.ok () }
      ⟨"l", some "Node-Healthcheck", some 0, 0, 300⟩ rfl rfl (by decide)
      (by decide)).1 (by decide)).1 rfl
    simpa using h

/-- C8 counterexample: when the node fetch fails with NotFound,
`ManageLease` returns the error instead of the benign (0, nil): the code
checks `errors.IsNotFound` only on the lease fetch, not on the node
fetch. -/
theorem manageLease_node_notfound_propagated :
    ManageLease
        { now := 0, policy := [], remediationKinds := [],
          nodeFetch := Except.error GoError.notFound,
          leaseFetch := Except.ok ⟨"l", none, some 0, 0, 0⟩,
          invalidateResult := none, requestResult := Except.ok () } =
      (0, some GoError.notFound, []) ∧
    some GoError.notFound ≠ (none : Option GoError) := by
  exact ⟨rfl, by decide⟩

/-- C8 (amended): a NotFoundError from the lease fetch is benign —
`ManageLease` returns (0, nil) with no store write; a NotFoundError from
the node fetch is propagated as (0, error) with no store write. -/
theorem manageLease_notfound_spec (inp : ManageLeaseInput) :
    (inp.nodeFetch = Except.ok () →
      inp.leaseFetch = Except.error GoError.notFound →
      ManageLease inp = (0, none, [])) ∧
    (inp.nodeFetch = Except.error GoError.notFound →
      ManageLease inp = (0, some GoError.notFound, [])) := by
  constructor
  · intro hnode hlease
    rw [ManageLease, hnode, hlease]
    rfl
  · intro hnode
    rw [ManageLease, hnode]

/-- C8 witness: with the lease fetch reporting NotFound, `ManageLease`
returns (0, nil) and issues no store write. -/
theorem manageLease_notfound_spec_witness :
    ManageLease
        { now := 0, policy := [], remediationKinds := ["A"],
          nodeFetch := Except.ok (),
          leaseFetch := Except.error GoError.notFound,
          invalidateResult := none, requestResult := Except.ok () } =
      (0, none, []) :=
  (manageLease_notfound_spec
    { now := 0, policy := [], remediationKinds := ["A"],
      nodeFetch := Except.ok (),
      leaseFetch := Except.error GoError.notFound,
      invalidateResult := none, requestResult := Except.ok () }).1 rfl rfl

/-- C9: with empty activeRemediations, a non-empty escalation policy, and
a fetched lease held by a different holder whose acquire time is set, the
computed required duration is zero, the overdue bound equals the acquire
time exactly, and whenever now is after the acquire time the lease is
judged overdue and invalidated despite the foreign holder. -/
theorem manageLease_zero_duration_overdue (inp : ManageLeaseInput) (l : Lease)
    (h : String) (a : Int)
    (hnode : inp.nodeFetch = Except.ok ())
    (hlease : inp.leaseFetch = Except.ok l)
    (hrem : inp.remediationKinds = [])
    (hpol : inp.policy ≠ [])
    (hhold : l.holderIdentity = some h)
    (hne : h ≠ holderIdentity)
    (hacq : l.acquireTime = some a)
    (hnow : inp.now > a) :
    getLeaseDurationForRemediations inp.policy inp.remediationKinds = 0 ∧
    calcLeaseExpiration a
      (getLeaseDurationForRemediations inp.policy inp.remediationKinds) = a ∧
    ManageLease inp = (0, inp.invalidateResult, [StoreWrite.invalidate]) := by
  have hd : getLeaseDurationForRemediations inp.policy inp.remediationKinds = 0 := by
    unfold getLeaseDurationForRemediations
    rw [if_pos (List.length_pos.mpr hpol), hrem]
    rfl
  have hcalc : calcLeaseExpiration a
      (getLeaseDurationForRemediations inp.policy inp.remediationKinds) = a := by
    rw [hd, calcLeaseExpiration]
    ring
  refine ⟨hd, hcalc, ?_⟩
  have hown : isLeaseOwner l = false := by
    rw [isLeaseOwner, hhold]
    simp [hne]
  have hov : isLeaseOverdue inp.now l inp.policy inp.remediationKinds =
      (true, none) := by
    rw [isLeaseOverdue, hacq]
    simp only [hcalc ▸ hd ▸ hcalc]
    rw [hd, calcLeaseExpiration]
    simp only [mul_zero, add_zero]
    simp [hnow]
  rw [manageLease_fetched inp l hnode hlease, hown]
  simp only [Bool.and_false, Bool.false_eq_true, if_false]
  rw [manageLeaseTail, hov]
  rfl

/-- C9 witness: concrete instance of the foreign-holder zero-duration
release — empty remediations, a one-step policy, holder "other-holder",
acquire time 0, current time 1. -/
theorem manageLease_zero_duration_overdue_witness :
    ManageLease
        { now := 1, policy := [⟨"BarTemplate", 20 * nsPerMinute⟩],
          remediationKinds := [], nodeFetch := Except.ok (),
          leaseFetch := Except.ok ⟨"l", some "other-holder", some 0, 0, 0⟩,
          invalidateResult := none, requestResult := Except.ok () } =
      (0, none, [StoreWrite.invalidate]) :=
  (manageLease_zero_duration_overdue
    { now := 1, policy := [⟨"BarTemplate", 20 * nsPerMinute⟩],
      remediationKinds := [], nodeFetch := Except.ok (),
      leaseFetch := Except.ok ⟨"l", some "other-holder", some 0, 0, 0⟩,
      invalidateResult := none, requestResult := Except.ok () }
    ⟨"l", some "other-holder", some 0, 0, 0⟩ "other-holder" 0
    rfl rfl rfl (by decide) rfl (by decide) rfl (by decide)).2.2

/-- C10: `isLeaseOwner` returns false for a lease whose holder identity
field is absent, so `ManageLease` never takes the
no-remediations-and-owner release branch for such a lease and instead
proceeds to the rest of the function. -/
theorem isLeaseOwner_nil_holder (inp : ManageLeaseInput) (l : Lease)
    (hhold : l.holderIdentity = none) :
    isLeaseOwner l = false ∧
    (inp.nodeFetch = Except.ok () → inp.leaseFetch = Except.ok l →
      ManageLease inp = manageLeaseTail inp l) := by
  have hown : isLeaseOwner l = false := by
    rw [isLeaseOwner, hhold]
  refine ⟨hown, ?_⟩
  intro hnode hlease
  rw [manageLease_fetched inp l hnode hlease, hown]
  simp

/-- C10 witness: a holder-less lease with empty remediations is not
released through the no-remediations-and-owner branch; `ManageLease`
behaves as the post-branch tail. -/
theorem isLeaseOwner_nil_holder_witness :
    isLeaseOwner ⟨"l", none, some 0, 0, 660⟩ = false ∧
    ManageLease
        { now := 0, policy := [], remediationKinds := [],
          nodeFetch := Except.ok (),
          leaseFetch := Except.ok ⟨"l", none, some 0, 0, 660⟩,
          invalidateResult := none, requestResult := Except.ok () } =
      manageLeaseTail
        { now := 0, policy := [], remediationKinds := [],
          nodeFetch := Except.ok (),
          leaseFetch := Except.ok ⟨"l", none, some 0, 0, 660⟩,
          invalidateResult := none, requestResult := Except.ok () }
        ⟨"l", none, some 0, 0, 660⟩ := by
  have h := isLeaseOwner_nil_holder
    { now := 0, policy := [], remediationKinds := [],
      nodeFetch := Except.ok (),
      leaseFetch := Except.ok ⟨"l", none, some 0, 0, 660⟩,
      invalidateResult := none, requestResult := Except.ok () }
    ⟨"l", none, some 0, 0, 660⟩ rfl
  exact ⟨h.1, h.2 rfl rfl⟩

/-! ### Claim theorems: ObtainNodeLease -/

/-- C6: a successful `ObtainNodeLease` requests a TTL of the computed
duration plus `LeaseBuffer` from the store while returning
(true, duration, nil) — the recheck hint excludes the buffer; with the
default 10-minute duration the requested TTL is 11 minutes. -/
theorem obtainNodeLease_success_spec (remediationKind : String)
    (policy : List EscalatingRemediation) :
    ObtainNodeLease remediationKind policy (Except.ok ()) (Except.ok ()) =
      (true, some (getLeaseDurationForRemediation remediationKind policy), none,
        [StoreWrite.request
          (getLeaseDurationForRemediation remediationKind policy +
            LeaseBuffer)]) ∧
    DefaultLeaseDuration = 10 * nsPerMinute ∧
    DefaultLeaseDuration + LeaseBuffer = 11 * nsPerMinute := by
  exact ⟨rfl, by decide, by decide⟩

/-- C7: on contention `ObtainNodeLease` returns
(false, RequeueIfLeaseTaken = 1 minute, AlreadyHeldError); the only store
operation issued is the single failed request — in particular no
invalidate write touches the existing lease; every other request failure
yields (false, no hint, the error unchanged). -/
theorem obtainNodeLease_contention_spec (remediationKind : String)
    (policy : List EscalatingRemediation) :
    ObtainNodeLease remediationKind policy (Except.ok ())
        (Except.error GoError.alreadyHeld) =
      (false, some RequeueIfLeaseTaken, some GoError.alreadyHeld,
        [StoreWrite.request
          (getLeaseDurationForRemediation remediationKind policy +
            LeaseBuffer)]) ∧
    RequeueIfLeaseTaken = nsPerMinute ∧
    StoreWrite.invalidate ∉
      (ObtainNodeLease remediationKind policy (Except.ok ())
        (Except.error GoError.alreadyHeld)).2.2.2 ∧
    (∀ e, e ≠ GoError.alreadyHeld →
      ObtainNodeLease remediationKind policy (Except.ok ())
          (Except.error e) =
        (false, none, some e,
          [StoreWrite.request
            (getLeaseDurationForRemediation remediationKind policy +
              LeaseBuffer)])) := by
  refine ⟨rfl, rfl, by simp [ObtainNodeLease], ?_⟩
  intro e he
  cases e with
  | notFound => rfl
  | alreadyHeld => exact absurd rfl he
  | malformedLease => rfl
  | other code => rfl

/-- C7 witness: a non-contention failure (an opaque backend error) is
propagated unchanged with no requeue hint. -/
theorem obtainNodeLease_contention_spec_witness :
    ObtainNodeLease "A" [] (Except.ok ())
        (Except.error (GoError.other 7)) =
      (false, none, some (GoError.other 7),
        [StoreWrite.request (DefaultLeaseDuration + LeaseBuffer)]) := by
  have h := (obtainNodeLease_contention_spec "A" []).2.2.2
    (GoError.other 7) (by decide)
  simpa using h
